import Mathlib

/-!
Shallow embedding of the bcpmm demo ingestion/decoding/math/storage core.

Conventions used throughout:
  * JavaScript `bigint` values are modelled as `ℤ`; the BigInt `/` operator
    truncates toward zero, so it is modelled by `Int.tdiv`.
  * Fallible JavaScript code (thrown exceptions caught by a `try`/`catch`)
    is modelled with `Option`.
  * Redis is modelled as an explicit state record threaded through the
    record/query functions; the mutable client handle of the source becomes
    a `RedisState` argument and result.
  * Library functions of the ledger client (base64 decoding, binary event
    decoders, discriminator hashes) are not code of this repository; they
    are abstracted as fields of `EventCodecs`, quantified in the theorems.
-/

/-! ## Curve Calculator (src/demo/src/virtual-token-price.ts) -/

/-- Pool snapshot consumed by the curve calculator.  The source type
`BcpmmPool` is decoded from an on-chain account whose reserve fields are
unsigned 64-bit integers surfaced as `bigint` (modelled `ℤ`) and whose fee
fields are basis-point counts surfaced as `number` (modelled `ℕ`). -/
structure BcpmmPool where
  aReserve : ℤ
  aVirtualReserve : ℤ
  bReserve : ℤ
  creatorFeeBasisPoints : ℕ
  buybackFeeBasisPoints : ℕ
deriving DecidableEq

/-- `calculateFees` of virtual-token-price.ts: ceiling-division fees
`(aAmount * bp + 9999) / 10000` for the creator and buyback components,
computed with BigInt truncating division. -/
def calculateFees (aAmount : ℤ) (creatorFeeBasisPoints buybackFeeBasisPoints : ℕ) : ℤ × ℤ :=
  ((aAmount * (creatorFeeBasisPoints : ℤ) + 9999).tdiv 10000,
   (aAmount * (buybackFeeBasisPoints : ℤ) + 9999).tdiv 10000)

/-- The net swap amount of `calculateBuyOutput`: the input minus both fee
components. -/
def netSwapAmount (aAmount : ℤ) (pool : BcpmmPool) : ℤ :=
  aAmount - (calculateFees aAmount pool.creatorFeeBasisPoints pool.buybackFeeBasisPoints).1
    - (calculateFees aAmount pool.creatorFeeBasisPoints pool.buybackFeeBasisPoints).2

/-- The constant-product stage of `calculateBuyOutput`: zero for a
non-positive net swap amount, otherwise
`(bReserve * swapAmount) / (aReserve + aVirtualReserve + swapAmount)`
with BigInt truncating division. -/
def buyOutputOfSwap (pool : BcpmmPool) (swapAmount : ℤ) : ℤ :=
  if swapAmount ≤ 0 then 0
  else (pool.bReserve * swapAmount).tdiv (pool.aReserve + pool.aVirtualReserve + swapAmount)

/-- `calculateBuyOutput` of virtual-token-price.ts, up to but not including
the final display conversion: returns the integer quote-token output
`outputB`.  The source ends with `Number(outputB) / 10 ** decimals`, a
human-readable display scaling modelled separately by
`calculateBuyOutputDisplay`. -/
def calculateBuyOutput (aAmount : ℤ) (pool : BcpmmPool) : ℤ :=
  if aAmount = 0 then 0
  else buyOutputOfSwap pool (netSwapAmount aAmount pool)

/-- The final line of `calculateBuyOutput`: conversion of the integer
output to a human-readable token count, modelled exactly in `ℚ`. -/
def calculateBuyOutputDisplay (aAmount : ℤ) (pool : BcpmmPool) (bTokenDecimals : ℕ) : ℚ :=
  (calculateBuyOutput aAmount pool : ℚ) / (10 : ℚ) ^ bTokenDecimals

/-! ## Event Decoder (parse-logs) -/

/-- Typed Buy event decoded from a log line (field list per the generated
client and the table in the data-model section of the spec). -/
structure BuyEvent where
  aInput : ℤ
  bOutput : ℤ
  creatorFees : ℤ
  buybackFees : ℤ
  platformFees : ℤ
  topupPaid : ℤ
  newBReserve : ℤ
  newAReserve : ℤ
  newOutstandingTopup : ℤ
  newCreatorFeesBalance : ℤ
  newBuybackFeesBalance : ℤ
  pool : String
  buyer : String
deriving DecidableEq

/-- Typed Sell event decoded from a log line. -/
structure SellEvent where
  bInput : ℤ
  aOutput : ℤ
  creatorFees : ℤ
  buybackFees : ℤ
  platformFees : ℤ
  topupPaid : ℤ
  newBReserve : ℤ
  newAReserve : ℤ
  newOutstandingTopup : ℤ
  newCreatorFeesBalance : ℤ
  newBuybackFeesBalance : ℤ
  pool : String
  seller : String
deriving DecidableEq

/-- Typed Burn event decoded from a log line. -/
structure BurnEvent where
  burnAmount : ℤ
  topupAccrued : ℤ
  newBReserve : ℤ
  newAReserve : ℤ
  newOutstandingTopup : ℤ
  newVirtualReserve : ℤ
  newBuybackFeesBalance : ℤ
  pool : String
  burner : String
deriving DecidableEq

/-- The tagged union returned by `parseLogs`. -/
inductive ParsedEvent where
  | buy (e : BuyEvent)
  | sell (e : SellEvent)
  | burn (e : BurnEvent)
deriving DecidableEq

/-- External library functionality used by `parseLogs`, abstracted:
`b64decode` models `Buffer.from(str, base64)` (total in Node: it never
throws, malformed input just yields fewer bytes); the three `disc` fields
are the 8-byte event discriminators (first 8 bytes of a SHA-256 hash,
computed by the registry); the three decoders model the generated binary
decoders, returning `none` where the source decoder would throw (the
source catches the throw and continues scanning). -/
structure EventCodecs where
  b64decode : String → List ℕ
  burnDisc : List ℕ
  buyDisc : List ℕ
  sellDisc : List ℕ
  decodeBurn : List ℕ → Option BurnEvent
  decodeBuy : List ℕ → Option BuyEvent
  decodeSell : List ℕ → Option SellEvent

/-- Character-list model of `String.startsWith`, kept kernel-reducible. -/
def strStartsWith (s pre : String) : Bool :=
  s.toList.take pre.toList.length == pre.toList

/-- Character-list model of `String.slice(n)` / `String.drop`. -/
def strDrop (s : String) (n : ℕ) : String :=
  ⟨s.toList.drop n⟩

/-- `parseLogs` of parse-logs.ts: scan the log lines in order; a line
qualifies if it begins with the marker `"Program data: "`; base64-decode
the remainder, compare the first 8 bytes against the three known
discriminators, decode the remaining bytes on a match and return the
first successfully decoded event; on a decoder throw (modelled `none`)
or no discriminator match, continue with the next line; return `none`
when no line yields an event. -/
def parseLogs (c : EventCodecs) : List String → Option ParsedEvent
  | [] => none
  | log :: rest =>
    if strStartsWith log "Program data: " then
      let eventData := c.b64decode (strDrop log 14)
      let discriminator := eventData.take 8
      if discriminator = c.burnDisc then
        match c.decodeBurn (eventData.drop 8) with
        | some e => some (.burn e)
        | none => parseLogs c rest
      else if discriminator = c.buyDisc then
        match c.decodeBuy (eventData.drop 8) with
        | some e => some (.buy e)
        | none => parseLogs c rest
      else if discriminator = c.sellDisc then
        match c.decodeSell (eventData.drop 8) with
        | some e => some (.sell e)
        | none => parseLogs c rest
      else parseLogs c rest
    else parseLogs c rest

/-! ## Event Store (src/demo/src/redis) -/

/-- Event kinds handled by the store. -/
inductive EventType where
  | buy
  | sell
  | burn
deriving DecidableEq

/-- The string form of an event type used in Redis keys and in the
`eventType` JSON field. -/
def eventTypeStr : EventType → String
  | .buy => "buy"
  | .sell => "sell"
  | .burn => "burn"

/-- The kind-specific part of a stored event record (the stringified
bigint fields of the serialized JSON value). -/
inductive StoredPayload where
  | buy (aInput bOutput creatorFees buybackFees platformFees topupPaid
      newBReserve newAReserve newOutstandingTopup newCreatorFeesBalance
      newBuybackFeesBalance : ℤ)
  | sell (bInput aOutput creatorFees buybackFees platformFees topupPaid
      newBReserve newAReserve newOutstandingTopup newCreatorFeesBalance
      newBuybackFeesBalance : ℤ)
  | burn (burnAmount topupAccrued newBReserve newAReserve
      newOutstandingTopup newVirtualReserve newBuybackFeesBalance : ℤ)
deriving DecidableEq

/-- A stored event value.  The source stores `JSON.stringify(eventData)`
and parses it back on read; serialization is modelled by storing the
record itself (the stringify/parse round trip is the identity on these
records, and the parse-failure branch of `getEvents` only fires on
corrupted storage, which this model does not produce). -/
structure StoredEvent where
  timestamp : ℤ
  poolAddress : String
  userAddress : String
  eventType : String
  payload : StoredPayload
deriving DecidableEq

/-- The Redis keyspace: plain string values (`SET`/`GET`), sorted sets
(`ZADD`/`ZRANGEBYSCORE`, member with score), and RedisTimeSeries keys
(`TS.ADD`, used only for analytics and never read by this core). -/
structure RedisState where
  strings : List (String × StoredEvent)
  zsets : List (String × List (ℤ × String))
  tseries : List (String × List (ℤ × ℤ))
deriving DecidableEq

/-- The empty Redis keyspace. -/
def emptyRedis : RedisState := ⟨[], [], []⟩

/-- `SET key value` on the string keyspace: replace the value of an
existing key, else append. -/
def setStrings (l : List (String × StoredEvent)) (key : String) (v : StoredEvent) :
    List (String × StoredEvent) :=
  if l.any (fun p => p.1 == key) then
    l.map (fun p => if p.1 == key then (key, v) else p)
  else
    l ++ [(key, v)]

/-- `SET key value` on the keyspace. -/
def redisSet (st : RedisState) (key : String) (v : StoredEvent) : RedisState :=
  { st with strings := setStrings st.strings key v }

/-- `ZADD` on one sorted set: update the score of an existing member,
else insert the member. -/
def zaddList (l : List (ℤ × String)) (score : ℤ) (member : String) : List (ℤ × String) :=
  if l.any (fun p => p.2 == member) then
    l.map (fun p => if p.2 == member then (score, member) else p)
  else
    l ++ [(score, member)]

/-- `ZADD key score member` on the sorted-set keyspace. -/
def zaddZsets (zs : List (String × List (ℤ × String))) (key : String) (score : ℤ)
    (member : String) : List (String × List (ℤ × String)) :=
  if zs.any (fun p => p.1 == key) then
    zs.map (fun p => if p.1 == key then (key, zaddList p.2 score member) else p)
  else
    zs ++ [(key, zaddList [] score member)]

/-- `ZADD key score member` on the keyspace. -/
def redisZadd (st : RedisState) (key : String) (score : ℤ) (member : String) : RedisState :=
  { st with zsets := zaddZsets st.zsets key score member }

/-- `TS.ADD key timestamp 1`: append a sample to a time series (labels
are not modelled; nothing in this core reads them back). -/
def redisTsAdd (st : RedisState) (key : String) (ts : ℤ) : RedisState :=
  if st.tseries.any (fun p => p.1 == key) then
    { st with tseries := st.tseries.map (fun p =>
        if p.1 == key then (key, p.2 ++ [(ts, 1)]) else p) }
  else
    { st with tseries := st.tseries ++ [(key, [(ts, 1)])] }

/-- The string key `cbmm-demo:events:buy:{pool}:{timestamp}` under which
a Buy event is stored. -/
def buyEventKey (pool : String) (ts : ℤ) : String :=
  "cbmm-demo:events:buy:" ++ pool ++ ":" ++ toString ts

/-- The sorted-set key `cbmm-demo:events:buy:{pool}` of the per-pool
chronological Buy index. -/
def buyZsetKey (pool : String) : String :=
  "cbmm-demo:events:buy:" ++ pool

/-- The string key under which a Burn event is stored. -/
def burnEventKey (pool : String) (ts : ℤ) : String :=
  "cbmm-demo:events:burn:" ++ pool ++ ":" ++ toString ts

/-- The sorted-set key of the per-pool chronological Burn index. -/
def burnZsetKey (pool : String) : String :=
  "cbmm-demo:events:burn:" ++ pool

/-- The stored record built by `recordBuyEvent`. -/
def buyStored (e : BuyEvent) (timestamp : ℤ) : StoredEvent :=
  ⟨timestamp, e.pool, e.buyer, "buy",
   .buy e.aInput e.bOutput e.creatorFees e.buybackFees e.platformFees
     e.topupPaid e.newBReserve e.newAReserve e.newOutstandingTopup
     e.newCreatorFeesBalance e.newBuybackFeesBalance⟩

/-- The stored record built by `recordSellEvent`. -/
def sellStored (e : SellEvent) (timestamp : ℤ) : StoredEvent :=
  ⟨timestamp, e.pool, e.seller, "sell",
   .sell e.bInput e.aOutput e.creatorFees e.buybackFees e.platformFees
     e.topupPaid e.newBReserve e.newAReserve e.newOutstandingTopup
     e.newCreatorFeesBalance e.newBuybackFeesBalance⟩

/-- The stored record built by `recordBurnEvent`. -/
def burnStored (e : BurnEvent) (timestamp : ℤ) : StoredEvent :=
  ⟨timestamp, e.pool, e.burner, "burn",
   .burn e.burnAmount e.topupAccrued e.newBReserve e.newAReserve
     e.newOutstandingTopup e.newVirtualReserve e.newBuybackFeesBalance⟩

/-- `recordBuyEvent` of record-buy-event.ts: `SET` of the full payload
under `cbmm-demo:events:buy:{pool}:{timestamp}`, a `TS.ADD` into
`cbmm-demo:ts:events:buy:{pool}`, and a `ZADD` of the value key into the
sorted set `cbmm-demo:events:buy:{pool}` with the timestamp as score. -/
def recordBuyEvent (e : BuyEvent) (timestamp : ℤ) (st : RedisState) : RedisState :=
  let poolAddress := e.pool
  let key := buyEventKey poolAddress timestamp
  let st1 := redisSet st key (buyStored e timestamp)
  let st2 := redisTsAdd st1 ("cbmm-demo:ts:events:buy:" ++ poolAddress) timestamp
  redisZadd st2 (buyZsetKey poolAddress) timestamp key

/-- `recordSellEvent` of record-sell-event.ts (same structure, sell keys). -/
def recordSellEvent (e : SellEvent) (timestamp : ℤ) (st : RedisState) : RedisState :=
  let poolAddress := e.pool
  let key := "cbmm-demo:events:sell:" ++ poolAddress ++ ":" ++ toString timestamp
  let st1 := redisSet st key (sellStored e timestamp)
  let st2 := redisTsAdd st1 ("cbmm-demo:ts:events:sell:" ++ poolAddress) timestamp
  redisZadd st2 ("cbmm-demo:events:sell:" ++ poolAddress) timestamp key

/-- `recordBurnEvent` (same structure, burn keys). -/
def recordBurnEvent (e : BurnEvent) (timestamp : ℤ) (st : RedisState) : RedisState :=
  let poolAddress := e.pool
  let key := burnEventKey poolAddress timestamp
  let st1 := redisSet st key (burnStored e timestamp)
  let st2 := redisTsAdd st1 ("cbmm-demo:ts:events:burn:" ++ poolAddress) timestamp
  redisZadd st2 (burnZsetKey poolAddress) timestamp key

/-- The query filter of `getEvents` (every field optional, as in the
source `EventQuery` type). -/
structure EventQuery where
  eventType : Option EventType
  poolAddress : Option String
  userAddress : Option String
  startTimestamp : Option ℤ
  endTimestamp : Option ℤ
  limit : Option ℕ
deriving DecidableEq

/-- The all-defaults query. -/
def emptyQuery : EventQuery := ⟨none, none, none, none, none, none⟩

/-- JavaScript truthiness of an optional string (`undefined` and the
empty string are falsy). -/
def jsTruthyStr : Option String → Bool
  | none => false
  | some s => !(s == "")

/-- JavaScript truthiness of an optional number (`undefined`, `null` and
`0` are falsy). -/
def jsTruthyInt : Option ℤ → Bool
  | none => false
  | some n => !(n == 0)

/-- Stable insertion of one element: `x` goes before the first `y` with
`le x y`; among comparator-equal elements the earlier-listed element
stays first, matching the stability guarantee of `Array.prototype.sort`. -/
def insertLe {α : Type} (le : α → α → Bool) (x : α) : List α → List α
  | [] => [x]
  | y :: ys => if le x y then x :: y :: ys else y :: insertLe le x ys

/-- Stable sort by a boolean comparator. -/
def sortByLe {α : Type} (le : α → α → Bool) : List α → List α
  | [] => []
  | x :: xs => insertLe le x (sortByLe le xs)

/-- The final `events.sort((a, b) => b.timestamp - a.timestamp)`:
stable, timestamp descending. -/
def sortTsDesc (l : List StoredEvent) : List StoredEvent :=
  sortByLe (fun a b => decide (b.timestamp ≤ a.timestamp)) l

/-- `ZRANGEBYSCORE key min max LIMIT 0 limit`: members whose score lies
in the (optionally unbounded) inclusive range, in ascending
(score, member) order, truncated to the first `limit` members. -/
def zrangebyscore (st : RedisState) (key : String) (min? max? : Option ℤ) (limit : ℕ) :
    List String :=
  let zs := (st.zsets.lookup key).getD []
  let inRange := zs.filter (fun p =>
    (match min? with | none => true | some m => decide (m ≤ p.1)) &&
    (match max? with | none => true | some m => decide (p.1 ≤ m)))
  let sorted := sortByLe (fun a b =>
    decide (a.1 < b.1) || (a.1 == b.1 && !(compare a.2 b.2 == Ordering.gt))) inRange
  (sorted.take limit).map (fun p => p.2)

/-- The per-index scan of `getEvents`: range-scan the sorted set at
`keyPattern`, `GET` each member key, and apply the in-loop filters
(note the JavaScript truthiness guards: a `0` timestamp bound or an
empty-string address disables its filter). -/
def getEventsScan (st : RedisState) (keyPattern : String) (q : EventQuery) :
    List StoredEvent :=
  let limit := q.limit.getD 100
  let keys := zrangebyscore st keyPattern q.startTimestamp q.endTimestamp limit
  keys.filterMap (fun key =>
    match st.strings.lookup key with
    | none => none
    | some event =>
      if jsTruthyStr q.poolAddress && !(some event.poolAddress == q.poolAddress) then none
      else if jsTruthyStr q.userAddress && !(some event.userAddress == q.userAddress) then none
      else if jsTruthyInt q.startTimestamp &&
          (match q.startTimestamp with | none => false | some s => decide (event.timestamp < s)) then none
      else if jsTruthyInt q.endTimestamp &&
          (match q.endTimestamp with | none => false | some e => decide (e < event.timestamp)) then none
      else some event)

/-- `KEYS pattern` for the patterns used by `getEvents`, which are all of
the form `prefix*`: every key of the keyspace (string, sorted-set and
time-series keys alike) whose name starts with the prefix. -/
def redisKeys (st : RedisState) (pre : String) : List String :=
  ((st.strings.map (fun p => p.1)) ++ (st.zsets.map (fun p => p.1))
    ++ (st.tseries.map (fun p => p.1))).filter (fun k => strStartsWith k pre)

/-- The JavaScript regular expression
`^events:(buy|sell|burn):([^:]+):` applied with `String.match`, returning
the second capture group (the pool id) on a match.  The pattern is
anchored at the start of the key. -/
def jsPoolMatch (key : String) : Option String :=
  let tryKind := fun (kind : String) =>
    let pre := "events:" ++ kind ++ ":"
    if strStartsWith key pre then
      let rest := key.toList.drop pre.toList.length
      let pool := rest.takeWhile (fun ch => !(ch == ':'))
      if pool.length > 0 && (rest.drop pool.length).length > 0 then
        some (String.mk pool)
      else none
    else none
  (tryKind "buy").orElse (fun _ => (tryKind "sell").orElse (fun _ => tryKind "burn"))

/-- Insertion-ordered deduplication, the iteration order of a JavaScript
`Set` populated by repeated `add`. -/
def dedupFirst (l : List String) : List String :=
  l.foldl (fun acc k => if acc.contains k then acc else acc ++ [k]) []

/-- The recursive call of `getEvents` in the fan-out branch:
`getEvents({...query, eventType: type, poolAddress: pool})`.  With the
pool address set, that call scans one sorted set and then applies the
final sort and limit, which is exactly this function. -/
def getEventsWithPool (st : RedisState) (q : EventQuery) (t : EventType) (pool : String) :
    List StoredEvent :=
  let q' : EventQuery := { q with eventType := some t, poolAddress := some pool }
  let keyPattern := "cbmm-demo:events:" ++ eventTypeStr t ++ ":" ++ pool
  (sortTsDesc (getEventsScan st keyPattern q')).take (q'.limit.getD 100)

/-- The loop body of `getEvents` for one event type: choose the key
pattern from the pool address (truthy), else the user address (truthy),
else fan out over the pools named by `jsPoolMatch` on all keys matching
`cbmm-demo:events:{type}:*` and recurse with the pool set. -/
def getEventsForType (st : RedisState) (q : EventQuery) (t : EventType) :
    List StoredEvent :=
  if jsTruthyStr q.poolAddress then
    getEventsScan st ("cbmm-demo:events:" ++ eventTypeStr t ++ ":" ++ q.poolAddress.getD "") q
  else if jsTruthyStr q.userAddress then
    getEventsScan st ("cbmm-demo:events:" ++ eventTypeStr t ++ ":user:" ++ q.userAddress.getD "") q
  else
    let allKeys := redisKeys st ("cbmm-demo:events:" ++ eventTypeStr t ++ ":")
    let uniquePools := dedupFirst (allKeys.filterMap jsPoolMatch)
    uniquePools.flatMap (fun pool => getEventsWithPool st q t pool)

/-- `getEvents` of get-events.ts: query the requested event type (default
all three), gather per-type results, sort by timestamp descending and
truncate to the limit (default 100). -/
def getEvents (st : RedisState) (q : EventQuery) : List StoredEvent :=
  let typesToQuery : List EventType :=
    match q.eventType with
    | some t => [t]
    | none => [.buy, .sell, .burn]
  let events := typesToQuery.flatMap (fun t => getEventsForType st q t)
  (sortTsDesc events).take (q.limit.getD 100)

/-! ## Ingestion Endpoint (src/demo/app/api/events/webhook/route.ts) -/

/-- The contract address filtered for by the webhook. -/
def CBMM_PROGRAM_ID : String := "CBMMzs3HKfTMudbXifeNcw3NcHQhZX7izDBKoGDLRdjj"

/-- One transaction record of the delivery payload; the three nested
optional-chained accesses of the source are flattened to `Option`
fields (`none` models a missing path or JSON `null`). -/
structure WebhookTx where
  blockTime : Option ℤ
  accountKeys : Option (List String)
  logMessages : Option (List String)
deriving DecidableEq

/-- The parsed request body: a JSON parse failure (the `request.json()`
throw, caught by the outer handler), a parse that is not an array, or a
transaction array. -/
inductive RequestBody where
  | malformedJson
  | nonArray
  | txs (l : List WebhookTx)
deriving DecidableEq

/-- One entry of the per-transaction `results` array. -/
inductive TxOutcome where
  | ok (eventType : String)
  | err (message : String)
deriving DecidableEq

/-- Character-list model of JavaScript `String.prototype.trim` over the
common whitespace characters. -/
def jsTrim (s : String) : String :=
  let isWS := fun (ch : Char) => ch == ' ' || ch == '\t' || ch == '\n' || ch == '\r'
  ⟨((s.toList.dropWhile isWS).reverse.dropWhile isWS).reverse⟩

/-- `tx.transaction?.message?.accountKeys?.some(key => key === CBMM_PROGRAM_ID)`
with the undefined short-circuit of optional chaining. -/
def involvesCBMM (tx : WebhookTx) : Bool :=
  match tx.accountKeys with
  | none => false
  | some ks => ks.contains CBMM_PROGRAM_ID

/-- The per-transaction loop body of the webhook `POST` handler: skip
silently when the contract is not among the account keys; record a
failure when `blockTime` is falsy; skip silently on missing or empty
logs or when no event decodes; otherwise record the event in the store
and append a success outcome tagged with the event kind.  (The source
dispatches on field presence — `bInput`/`seller` for sell,
`aInput`/`buyer` for buy, `burnAmount`/`burner` for burn — which is
constructor discrimination on the tagged union.) -/
def processTx (c : EventCodecs) (acc : RedisState × List TxOutcome) (tx : WebhookTx) :
    RedisState × List TxOutcome :=
  if !(involvesCBMM tx) then acc
  else if !(jsTruthyInt tx.blockTime) then (acc.1, acc.2 ++ [.err "Missing blockTime"])
  else
    let blockTime := tx.blockTime.getD 0
    match tx.logMessages with
    | none => acc
    | some [] => acc
    | some logs =>
      match parseLogs c logs with
      | none => acc
      | some (.sell e) => (recordSellEvent e blockTime acc.1, acc.2 ++ [.ok "sell"])
      | some (.buy e) => (recordBuyEvent e blockTime acc.1, acc.2 ++ [.ok "buy"])
      | some (.burn e) => (recordBurnEvent e blockTime acc.1, acc.2 ++ [.ok "burn"])

/-- The webhook `POST` handler: HTTP status, per-transaction outcome
list, and resulting store state.  Order of checks as in the source: a
JSON parse throw yields 500 from the outer catch; a non-array body
yields 400; a falsy (unset or empty) `WEBHOOK_SECRET` yields 400; an
`Authorization` header whose trimmed value differs from the secret
yields 401; otherwise the transactions are processed in order and the
handler returns 200. -/
def webhookPost (c : EventCodecs) (secret authHeader : Option String) (body : RequestBody)
    (st : RedisState) : ℕ × List TxOutcome × RedisState :=
  match body with
  | .malformedJson => (500, [], st)
  | .nonArray => (400, [], st)
  | .txs l =>
    if !(jsTruthyStr secret) then (400, [], st)
    else if !(authHeader.map jsTrim == secret) then (401, [], st)
    else
      let r := l.foldl (processTx c) (st, [])
      (200, r.2, r.1)

/-! ## Concrete instances used by scenarios, counterexamples and witnesses -/

/-- A concrete codec bundle for closed evaluations: decodes nothing,
with three distinct discriminators. -/
def demoCodecs : EventCodecs :=
  ⟨fun _ => [], [1, 1, 1, 1, 1, 1, 1, 1], [2, 2, 2, 2, 2, 2, 2, 2],
   [3, 3, 3, 3, 3, 3, 3, 3], fun _ => none, fun _ => none, fun _ => none⟩

/-- The pool snapshot of the buy-output scenario: base reserve 1,000,000,
virtual reserve 2,000,000, quote reserve 10,000,000, creator fee 500 bp,
buyback fee 100 bp. -/
def scenarioPool : BcpmmPool := ⟨1000000, 2000000, 10000000, 500, 100⟩

/-- A pool on which the two ceiling fees jointly grow faster than the
input: 2500 bp each, tiny real reserve. -/
def feeJitterPool : BcpmmPool := ⟨1, 0, 1000, 2500, 2500⟩

/-- A concrete Buy event for pool P1, parameterized by an amount used to
make payloads distinct. -/
def demoBuyEvent (i : ℤ) : BuyEvent :=
  ⟨i, i, 0, 0, 0, 0, 0, 0, 0, 0, 0, "P1", "U1"⟩

/-- A concrete Burn event for pool P1. -/
def demoBurnEvent (i : ℤ) : BurnEvent :=
  ⟨i, 0, 0, 0, 0, 0, 0, "P1", "U1"⟩

/-- The store after recording three Buy events for pool P1 at timestamps
10, 20 and 30. -/
def threeBuyStore : RedisState :=
  recordBuyEvent (demoBuyEvent 3) 30
    (recordBuyEvent (demoBuyEvent 2) 20
      (recordBuyEvent (demoBuyEvent 1) 10 emptyRedis))

/-- A delivery transaction that does not touch the contract. -/
def strangerTx : WebhookTx :=
  ⟨some 5, some ["SomeOtherAccount"], some ["Program log: hello"]⟩

/-! ## Lemmas about the Curve Calculator -/

/-- The ceiling-fee kernel `(n + 9999) tdiv 10000` over-approximates
`n / 10000`, under-approximates it by less than one unit, and equals the
exact rational ceiling, for non-negative `n`. -/
theorem ceilFeeSpec (n : ℤ) (hn : 0 ≤ n) :
    n ≤ ((n + 9999).tdiv 10000) * 10000 ∧
    (((n + 9999).tdiv 10000) - 1) * 10000 < n ∧
    (n + 9999).tdiv 10000 = ⌈(n : ℚ) / 10000⌉ := by
  have hdiv : (n + 9999).tdiv 10000 = (n + 9999) / 10000 :=
    Int.tdiv_eq_ediv (by omega) (by norm_num)
  rw [hdiv]
  have h1 : n ≤ ((n + 9999) / 10000) * 10000 := by omega
  have h2 : (((n + 9999) / 10000) - 1) * 10000 < n := by omega
  refine ⟨h1, h2, ?_⟩
  symm
  rw [Int.ceil_eq_iff]
  constructor
  · rw [show ((((n + 9999) / 10000 : ℤ) : ℚ) - 1) = (((n + 9999) / 10000 - 1 : ℤ) : ℚ) by push_cast; ring]
    rw [lt_div_iff₀ (by norm_num : (0 : ℚ) < 10000)]
    exact_mod_cast h2
  · rw [div_le_iff₀ (by norm_num : (0 : ℚ) < 10000)]
    exact_mod_cast h1

/-- The constant-product stage never returns a negative amount when the
pool reserves are non-negative. -/
theorem buyOutputOfSwap_nonneg (pool : BcpmmPool) (hA : 0 ≤ pool.aReserve)
    (hV : 0 ≤ pool.aVirtualReserve) (hB : 0 ≤ pool.bReserve) (s : ℤ) :
    0 ≤ buyOutputOfSwap pool s := by
  unfold buyOutputOfSwap
  split
  · exact le_refl 0
  · rename_i hs
    have hs0 : 0 < s := by omega
    have hD : 0 < pool.aReserve + pool.aVirtualReserve + s := by omega
    have hdiv : (pool.bReserve * s).tdiv (pool.aReserve + pool.aVirtualReserve + s)
        = (pool.bReserve * s) / (pool.aReserve + pool.aVirtualReserve + s) :=
      Int.tdiv_eq_ediv (mul_nonneg hB hs0.le) hD.le
    rw [hdiv]
    exact Int.ediv_nonneg (mul_nonneg hB hs0.le) hD.le

/-- The constant-product stage is bounded by the quote reserve when the
pool reserves are non-negative. -/
theorem buyOutputOfSwap_le_bReserve (pool : BcpmmPool) (hA : 0 ≤ pool.aReserve)
    (hV : 0 ≤ pool.aVirtualReserve) (hB : 0 ≤ pool.bReserve) (s : ℤ) :
    buyOutputOfSwap pool s ≤ pool.bReserve := by
  unfold buyOutputOfSwap
  split
  · exact hB
  · rename_i hs
    have hs0 : 0 < s := by omega
    have hD : 0 < pool.aReserve + pool.aVirtualReserve + s := by omega
    have hdiv : (pool.bReserve * s).tdiv (pool.aReserve + pool.aVirtualReserve + s)
        = (pool.bReserve * s) / (pool.aReserve + pool.aVirtualReserve + s) :=
      Int.tdiv_eq_ediv (mul_nonneg hB hs0.le) hD.le
    rw [hdiv]
    calc pool.bReserve * s / (pool.aReserve + pool.aVirtualReserve + s)
        ≤ pool.bReserve * (pool.aReserve + pool.aVirtualReserve + s)
            / (pool.aReserve + pool.aVirtualReserve + s) := by
          refine Int.ediv_le_ediv hD ?_
          exact mul_le_mul_of_nonneg_left (by omega) hB
      _ = pool.bReserve := Int.mul_ediv_cancel _ hD.ne'

/-- The constant-product stage is monotone in the net swap amount when
the pool reserves are non-negative. -/
theorem buyOutputOfSwap_mono (pool : BcpmmPool) (hA : 0 ≤ pool.aReserve)
    (hV : 0 ≤ pool.aVirtualReserve) (hB : 0 ≤ pool.bReserve) {s s' : ℤ} (h : s ≤ s') :
    buyOutputOfSwap pool s ≤ buyOutputOfSwap pool s' := by
  by_cases hs' : s' ≤ 0
  · have hs : s ≤ 0 := le_trans h hs'
    unfold buyOutputOfSwap
    rw [if_pos hs, if_pos hs']
  · by_cases hs : s ≤ 0
    · calc buyOutputOfSwap pool s = 0 := by unfold buyOutputOfSwap; rw [if_pos hs]
        _ ≤ buyOutputOfSwap pool s' := buyOutputOfSwap_nonneg pool hA hV hB s'
    · push_neg at hs hs'
      unfold buyOutputOfSwap
      rw [if_neg (not_le.mpr hs), if_neg (not_le.mpr hs')]
      have hD : 0 < pool.aReserve + pool.aVirtualReserve + s := by omega
      have hD' : 0 < pool.aReserve + pool.aVirtualReserve + s' := by omega
      have hdiv : (pool.bReserve * s).tdiv (pool.aReserve + pool.aVirtualReserve + s)
          = (pool.bReserve * s) / (pool.aReserve + pool.aVirtualReserve + s) :=
        Int.tdiv_eq_ediv (mul_nonneg hB hs.le) hD.le
      have hdiv' : (pool.bReserve * s').tdiv (pool.aReserve + pool.aVirtualReserve + s')
          = (pool.bReserve * s') / (pool.aReserve + pool.aVirtualReserve + s') :=
        Int.tdiv_eq_ediv (mul_nonneg hB hs'.le) hD'.le
      rw [hdiv, hdiv']
      set A := pool.aReserve + pool.aVirtualReserve with hAdef
      have hA0 : 0 ≤ A := by omega
      set q := pool.bReserve * s / (A + s) with hq
      have hq1 : q * (A + s) ≤ pool.bReserve * s := (Int.le_ediv_iff_mul_le hD).mp le_rfl
      rw [Int.le_ediv_iff_mul_le hD']
      have key : q * (A + s') * (A + s) ≤ pool.bReserve * s' * (A + s) := by
        have step1 : q * (A + s) * (A + s') ≤ pool.bReserve * s * (A + s') :=
          mul_le_mul_of_nonneg_right hq1 hD'.le
        have step2 : pool.bReserve * s * (A + s') ≤ pool.bReserve * s' * (A + s) := by
          nlinarith [mul_le_mul_of_nonneg_left h (mul_nonneg hB hA0)]
        nlinarith [step1, step2]
      exact le_of_mul_le_mul_right key hD

/-- The net swap amount of a zero input is zero (both fees of a zero
input are zero). -/
theorem netSwapAmount_zero (pool : BcpmmPool) : netSwapAmount 0 pool = 0 := by
  simp only [netSwapAmount, calculateFees, zero_mul, zero_add]
  decide

/-! ## Claim theorems: Curve Calculator -/

/-- C1: on the scenario pool (base reserve 1,000,000, virtual reserve
2,000,000, quote reserve 10,000,000, creator fee 500 bp, buyback fee
100 bp), the buy output of input 1,000,000 equals the closed formula:
the two fees by exact rational ceiling are subtracted from the input and
the constant-product quotient is taken by exact rational floor. -/
theorem buyOutput_scenario_formula :
    calculateBuyOutput 1000000 scenarioPool =
      ⌊(10000000 * ((1000000 : ℚ) - ⌈(1000000 * 500 : ℚ) / 10000⌉ - ⌈(1000000 * 100 : ℚ) / 10000⌉))
        / (1000000 + 2000000 + (1000000 - 50000 - 10000))⌋ := by
  rw [show calculateBuyOutput 1000000 scenarioPool = 2385786 from by decide]
  norm_num

/-- C2: for every basis-point pair and positive amount, each fee
component of `calculateFees` satisfies the two ceiling inequalities and
equals the exact rational ceiling `ceil(amount * bp / 10000)`. -/
theorem calculateFees_ceiling (aAmount : ℤ) (cbp bbp : ℕ) (ha : 0 < aAmount) :
    ((calculateFees aAmount cbp bbp).1 * 10000 ≥ aAmount * (cbp : ℤ) ∧
     ((calculateFees aAmount cbp bbp).1 - 1) * 10000 < aAmount * (cbp : ℤ) ∧
     (calculateFees aAmount cbp bbp).1 = ⌈((aAmount * (cbp : ℤ) : ℤ) : ℚ) / 10000⌉) ∧
    ((calculateFees aAmount cbp bbp).2 * 10000 ≥ aAmount * (bbp : ℤ) ∧
     ((calculateFees aAmount cbp bbp).2 - 1) * 10000 < aAmount * (bbp : ℤ) ∧
     (calculateFees aAmount cbp bbp).2 = ⌈((aAmount * (bbp : ℤ) : ℤ) : ℚ) / 10000⌉) := by
  have hc := ceilFeeSpec (aAmount * (cbp : ℤ)) (mul_nonneg ha.le (Int.natCast_nonneg cbp))
  have hb := ceilFeeSpec (aAmount * (bbp : ℤ)) (mul_nonneg ha.le (Int.natCast_nonneg bbp))
  exact ⟨⟨hc.1, hc.2.1, hc.2.2⟩, ⟨hb.1, hb.2.1, hb.2.2⟩⟩

/-- Witness for C2 at amount 3, creator 500 bp, buyback 100 bp. -/
theorem calculateFees_ceiling_witness :
    (0 : ℤ) < 3 ∧
    (((calculateFees 3 500 100).1 * 10000 ≥ 3 * ((500 : ℕ) : ℤ) ∧
      ((calculateFees 3 500 100).1 - 1) * 10000 < 3 * ((500 : ℕ) : ℤ) ∧
      (calculateFees 3 500 100).1 = ⌈((3 * ((500 : ℕ) : ℤ) : ℤ) : ℚ) / 10000⌉) ∧
     ((calculateFees 3 500 100).2 * 10000 ≥ 3 * ((100 : ℕ) : ℤ) ∧
      ((calculateFees 3 500 100).2 - 1) * 10000 < 3 * ((100 : ℕ) : ℤ) ∧
      (calculateFees 3 500 100).2 = ⌈((3 * ((100 : ℕ) : ℤ) : ℤ) : ℚ) / 10000⌉)) :=
  ⟨by decide, calculateFees_ceiling 3 500 100 (by decide)⟩

/-- C3 counterexample: on `feeJitterPool` (2500 bp creator and buyback
fees, reserves 1 base / 0 virtual / 1000 quote) the inputs 4 and 5 are
ordered but the buy outputs are not: the input-5 output is strictly
smaller, because both ceiling fees jump by one unit between 4 and 5 and
the net swap amount drops from 2 to 1. -/
theorem buyOutput_not_monotone_cex :
    (4 : ℤ) ≤ 5 ∧ calculateBuyOutput 5 feeJitterPool < calculateBuyOutput 4 feeJitterPool := by
  exact ⟨by decide, by decide⟩

/-- C3 amended: for a pool with non-negative reserves the buy output is
non-decreasing in the net swap amount (input minus the two ceiling
fees); monotonicity in the raw input amount fails because the two
ceiling fees can jointly grow by more than the input increment. -/
theorem calculateBuyOutput_mono_netSwap (pool : BcpmmPool) (hA : 0 ≤ pool.aReserve)
    (hV : 0 ≤ pool.aVirtualReserve) (hB : 0 ≤ pool.bReserve) (x y : ℤ)
    (h : netSwapAmount x pool ≤ netSwapAmount y pool) :
    calculateBuyOutput x pool ≤ calculateBuyOutput y pool := by
  unfold calculateBuyOutput
  by_cases hx : x = 0 <;> by_cases hy : y = 0
  · rw [if_pos hx, if_pos hy]
  · rw [if_pos hx, if_neg hy]
    exact buyOutputOfSwap_nonneg pool hA hV hB _
  · rw [if_neg hx, if_pos hy]
    have hx0 : netSwapAmount x pool ≤ 0 := by
      have := netSwapAmount_zero pool
      rw [hy, this] at h
      exact h
    unfold buyOutputOfSwap
    rw [if_pos hx0]
  · rw [if_neg hx, if_neg hy]
    exact buyOutputOfSwap_mono pool hA hV hB h

/-- Witness for the amended C3 on the scenario pool with net swap
amounts of inputs 100 and 1,000,000. -/
theorem calculateBuyOutput_mono_netSwap_witness :
    ((0 : ℤ) ≤ scenarioPool.aReserve ∧ (0 : ℤ) ≤ scenarioPool.aVirtualReserve ∧
     (0 : ℤ) ≤ scenarioPool.bReserve ∧
     netSwapAmount 100 scenarioPool ≤ netSwapAmount 1000000 scenarioPool) ∧
    calculateBuyOutput 100 scenarioPool ≤ calculateBuyOutput 1000000 scenarioPool :=
  ⟨by decide, calculateBuyOutput_mono_netSwap scenarioPool (by decide) (by decide) (by decide)
    100 1000000 (by decide)⟩

/-- C10: for a pool with non-negative reserves, no input amount can buy
more than the quote reserve the pool holds. -/
theorem calculateBuyOutput_le_bReserve (pool : BcpmmPool) (hA : 0 ≤ pool.aReserve)
    (hV : 0 ≤ pool.aVirtualReserve) (hB : 0 ≤ pool.bReserve) (aAmount : ℤ) :
    calculateBuyOutput aAmount pool ≤ pool.bReserve := by
  unfold calculateBuyOutput
  split
  · exact hB
  · exact buyOutputOfSwap_le_bReserve pool hA hV hB _

/-- Witness for C10 on the scenario pool at input 123456789. -/
theorem calculateBuyOutput_le_bReserve_witness :
    ((0 : ℤ) ≤ scenarioPool.aReserve ∧ (0 : ℤ) ≤ scenarioPool.aVirtualReserve ∧
     (0 : ℤ) ≤ scenarioPool.bReserve) ∧
    calculateBuyOutput 123456789 scenarioPool ≤ scenarioPool.bReserve :=
  ⟨by decide, calculateBuyOutput_le_bReserve scenarioPool (by decide) (by decide) (by decide)
    123456789⟩

/-! ## Claim theorems: Event Decoder -/

/-- C7: whatever the decoding back end, for every log-line sequence in
which no data-carrying line decodes to a payload whose first 8 bytes
equal one of the three known discriminators, `parseLogs` returns `none`.
Absence of exceptions is captured by the model itself: the scan is a
total function, base64 decoding is total, and a decoder throw (modelled
`none`) only makes the scan continue. -/
theorem parseLogs_no_discriminator_none (c : EventCodecs) (logs : List String)
    (h : ∀ l ∈ logs, strStartsWith l "Program data: " = true →
      ((c.b64decode (strDrop l 14)).take 8 ≠ c.burnDisc ∧
       (c.b64decode (strDrop l 14)).take 8 ≠ c.buyDisc ∧
       (c.b64decode (strDrop l 14)).take 8 ≠ c.sellDisc)) :
    parseLogs c logs = none := by
  induction logs with
  | nil => rfl
  | cons l rest ih =>
    have htail : parseLogs c rest = none :=
      ih (fun x hx hs => h x (List.mem_cons_of_mem l hx) hs)
    rw [parseLogs]
    by_cases hs : strStartsWith l "Program data: " = true
    · obtain ⟨h1, h2, h3⟩ := h l (List.mem_cons_self l rest) hs
      simp only [hs, if_true, if_neg h1, if_neg h2, if_neg h3, htail]
    · simp only [Bool.not_eq_true] at hs
      simp only [hs, Bool.false_eq_true, if_false, htail]

/-- Witness for C7: two concrete lines, one data-carrying with an
unmatched payload and one unrelated, scanned with the concrete demo
codec bundle. -/
theorem parseLogs_no_discriminator_none_witness :
    (∀ l ∈ (["Program data: AAAA", "Program log: hello"] : List String),
      strStartsWith l "Program data: " = true →
      ((demoCodecs.b64decode (strDrop l 14)).take 8 ≠ demoCodecs.burnDisc ∧
       (demoCodecs.b64decode (strDrop l 14)).take 8 ≠ demoCodecs.buyDisc ∧
       (demoCodecs.b64decode (strDrop l 14)).take 8 ≠ demoCodecs.sellDisc)) ∧
    parseLogs demoCodecs ["Program data: AAAA", "Program log: hello"] = none :=
  ⟨by decide, parseLogs_no_discriminator_none demoCodecs _ (by decide)⟩

/-! ## Claim theorems: Event Store queries -/

/-- C4 counterexample: after recording Buy events for pool P1 at
timestamps 10, 20 and 30, the query `{pool: P1, limit: 2}` returns the
events at timestamps 20 and 10 — not 30 and 20 — because the sorted-set
range scan applies `LIMIT 0 2` to the ascending-by-score range before
the final descending sort. -/
theorem getEvents_limit_two_cex :
    (getEvents threeBuyStore ⟨none, some "P1", none, none, none, some 2⟩).map
      (fun e => e.timestamp) = [20, 10] ∧
    ([20, 10] : List ℤ) ≠ [30, 20] := by
  exact ⟨by decide, by decide⟩

/-- C4 amended: the same query returns exactly the stored events at
timestamps 20 and 10, in that order: the per-pool index scan truncates
to the first `limit` entries in ascending timestamp order, and only then
is the result sorted descending. -/
theorem getEvents_limit_two_actual :
    getEvents threeBuyStore ⟨none, some "P1", none, none, none, some 2⟩
      = [buyStored (demoBuyEvent 2) 20, buyStored (demoBuyEvent 1) 10] := by
  decide

/-- C6: evaluation at the failing input.  With one Buy event recorded
for pool P1, the pool-unconstrained query returns nothing, although the
per-pool query shows the store holds that event: the fan-out regular
expression is anchored at `events:` while every key the store writes
starts with `cbmm-demo:`, so no key ever matches and the enumerated pool
set is empty. -/
theorem getEvents_fanout_empty_cex :
    getEvents (recordBuyEvent (demoBuyEvent 1) 10 emptyRedis) emptyQuery = [] ∧
    getEvents (recordBuyEvent (demoBuyEvent 1) 10 emptyRedis)
      ⟨none, some "P1", none, none, none, none⟩ = [buyStored (demoBuyEvent 1) 10] := by
  exact ⟨by decide, by decide⟩

/-! ## Claim theorems: Ingestion Endpoint -/

/-- C8 counterexample: with the shared secret unconfigured, a
structurally valid delivery is rejected with status 400 — not the
authentication status 401 the claim states — and no events are stored. -/
theorem webhook_unset_secret_cex :
    webhookPost demoCodecs none (some "token") (.txs []) emptyRedis = (400, [], emptyRedis) ∧
    (400 : ℕ) ≠ 401 := by
  exact ⟨by decide, by decide⟩

/-- C8 amended: for a structurally valid (array) delivery, a falsy
(unset or empty) shared secret is rejected with status 400, and a
configured secret with a non-matching trimmed auth token is rejected
with status 401; in both cases the outcome list is empty and the store
is unchanged (fail closed, no partial effect). -/
theorem webhook_auth_failures (c : EventCodecs) (secret authHeader : Option String)
    (l : List WebhookTx) (st : RedisState) :
    (jsTruthyStr secret = false →
      webhookPost c secret authHeader (.txs l) st = (400, [], st)) ∧
    (jsTruthyStr secret = true → authHeader.map jsTrim ≠ secret →
      webhookPost c secret authHeader (.txs l) st = (401, [], st)) := by
  constructor
  · intro h
    simp only [webhookPost, h, Bool.not_false, if_true]
  · intro h1 h2
    simp only [webhookPost, h1, Bool.not_true, Bool.false_eq_true, if_false]
    rw [if_pos]
    simp only [Bool.not_eq_true']
    exact beq_eq_false_iff_ne.mpr h2

/-- Witness for the amended C8: both rejection branches at concrete
inputs (unset secret; wrong token against secret "s"). -/
theorem webhook_auth_failures_witness :
    (jsTruthyStr none = false ∧
      webhookPost demoCodecs none (some "a") (.txs [strangerTx]) emptyRedis
        = (400, [], emptyRedis)) ∧
    (jsTruthyStr (some "s") = true ∧ (some "x").map jsTrim ≠ some "s" ∧
      webhookPost demoCodecs (some "s") (some "x") (.txs [strangerTx]) emptyRedis
        = (401, [], emptyRedis)) :=
  ⟨⟨by decide, (webhook_auth_failures demoCodecs none (some "a") [strangerTx] emptyRedis).1
      (by decide)⟩,
   ⟨by decide, by decide,
    (webhook_auth_failures demoCodecs (some "s") (some "x") [strangerTx] emptyRedis).2
      (by decide) (by decide)⟩⟩

/-- C9 counterexample: an authenticated delivery whose single
transaction does not touch the contract yields status 200, an empty
outcome list — no "skipped" outcome is recorded for the transaction —
and an unchanged store. -/
theorem webhook_foreign_tx_cex :
    webhookPost demoCodecs (some "s") (some "s") (.txs [strangerTx]) emptyRedis
      = (200, [], emptyRedis) := by
  decide

/-- C9 amended: an authenticated delivery with one transaction that does
not list the contract among its account keys stores nothing and returns
status 200 with an empty per-transaction outcome list: such a
transaction is skipped silently, with no outcome entry of any kind. -/
theorem webhook_skips_foreign_tx (c : EventCodecs) (secret authHeader : Option String)
    (tx : WebhookTx) (st : RedisState) (hsec : jsTruthyStr secret = true)
    (hauth : authHeader.map jsTrim = secret) (hfor : involvesCBMM tx = false) :
    webhookPost c secret authHeader (.txs [tx]) st = (200, [], st) := by
  simp only [webhookPost, hsec, Bool.not_true, Bool.false_eq_true, if_false]
  rw [if_neg]
  · simp only [List.foldl_cons, List.foldl_nil, processTx, hfor, Bool.not_false, if_true]
  · simp only [Bool.not_eq_true']
    rw [hauth]
    simp

/-- Witness for the amended C9 at concrete inputs. -/
theorem webhook_skips_foreign_tx_witness :
    (jsTruthyStr (some "s") = true ∧ (some "s").map jsTrim = some "s" ∧
      involvesCBMM strangerTx = false) ∧
    webhookPost demoCodecs (some "s") (some "s") (.txs [strangerTx]) emptyRedis
      = (200, [], emptyRedis) :=
  ⟨⟨by decide, by decide, by decide⟩,
   webhook_skips_foreign_tx demoCodecs (some "s") (some "s") strangerTx emptyRedis
     (by decide) (by decide) (by decide)⟩

/-! ## Lemmas about the Event Store primitives -/

/-- Projection: `TS.ADD` does not touch the string keyspace. -/
theorem redisTsAdd_strings (st : RedisState) (k : String) (ts : ℤ) :
    (redisTsAdd st k ts).strings = st.strings := by
  unfold redisTsAdd; split <;> rfl

/-- Projection: `TS.ADD` does not touch the sorted-set keyspace. -/
theorem redisTsAdd_zsets (st : RedisState) (k : String) (ts : ℤ) :
    (redisTsAdd st k ts).zsets = st.zsets := by
  unfold redisTsAdd; split <;> rfl

/-- The string keyspace after `recordBuyEvent` is a `SET` of the stored
record under the compound key. -/
theorem recordBuyEvent_strings (e : BuyEvent) (ts : ℤ) (st : RedisState) :
    (recordBuyEvent e ts st).strings
      = setStrings st.strings (buyEventKey e.pool ts) (buyStored e ts) := by
  simp only [recordBuyEvent, redisZadd, redisTsAdd_strings, redisSet]

/-- The sorted-set keyspace after `recordBuyEvent` is a `ZADD` of the
compound key into the per-pool index. -/
theorem recordBuyEvent_zsets (e : BuyEvent) (ts : ℤ) (st : RedisState) :
    (recordBuyEvent e ts st).zsets
      = zaddZsets st.zsets (buyZsetKey e.pool) ts (buyEventKey e.pool ts) := by
  simp only [recordBuyEvent, redisZadd, redisTsAdd_zsets, redisSet]

/-- The string keyspace after `recordBurnEvent`. -/
theorem recordBurnEvent_strings (e : BurnEvent) (ts : ℤ) (st : RedisState) :
    (recordBurnEvent e ts st).strings
      = setStrings st.strings (burnEventKey e.pool ts) (burnStored e ts) := by
  simp only [recordBurnEvent, redisZadd, redisTsAdd_strings, redisSet]

/-- The sorted-set keyspace after `recordBurnEvent`. -/
theorem recordBurnEvent_zsets (e : BurnEvent) (ts : ℤ) (st : RedisState) :
    (recordBurnEvent e ts st).zsets
      = zaddZsets st.zsets (burnZsetKey e.pool) ts (burnEventKey e.pool ts) := by
  simp only [recordBurnEvent, redisZadd, redisTsAdd_zsets, redisSet]

/-- Filtering for a key after the replace branch of `SET` yields one
replaced pair per previously matching pair. -/
theorem filter_map_upsert_strings (l : List (String × StoredEvent)) (key : String)
    (v : StoredEvent) :
    ((l.map (fun p => if p.1 == key then (key, v) else p)).filter (fun p => p.1 == key))
      = (l.filter (fun p => p.1 == key)).map (fun _ => (key, v)) := by
  induction l with
  | nil => rfl
  | cons p t ih =>
    rw [List.map_cons]
    by_cases hp : (p.1 == key) = true
    · rw [if_pos hp,
        @List.filter_cons_of_pos _ (fun q => q.1 == key) (key, v) _ (by simp),
        @List.filter_cons_of_pos _ (fun q => q.1 == key) p t hp,
        List.map_cons, ih]
    · rw [if_neg hp,
        @List.filter_cons_of_neg _ (fun q => q.1 == key) p _ hp,
        @List.filter_cons_of_neg _ (fun q => q.1 == key) p t hp, ih]

/-- Two `SET`s of the same fresh key leave exactly one pair under that
key, holding the second value. -/
theorem setStrings_twice_filter (l : List (String × StoredEvent)) (key : String)
    (v1 v2 : StoredEvent) (h : l.filter (fun p => p.1 == key) = []) :
    (setStrings (setStrings l key v1) key v2).filter (fun p => p.1 == key)
      = [(key, v2)] := by
  have hnone : ∀ p ∈ l, ¬(p.1 == key) = true := by
    intro p hp hcontra
    have : p ∈ l.filter (fun q => q.1 == key) := List.mem_filter.mpr ⟨hp, hcontra⟩
    rw [h] at this
    exact absurd this (List.not_mem_nil p)
  have hany : l.any (fun p => p.1 == key) = false := by
    rw [List.any_eq_false]
    exact hnone
  have hstep1 : setStrings l key v1 = l ++ [(key, v1)] := by
    unfold setStrings
    rw [hany]
    simp
  have hany2 : ((l ++ [(key, v1)]).any fun p => p.1 == key) = true := by simp
  have hstep2 : setStrings (l ++ [(key, v1)]) key v2
      = (l ++ [(key, v1)]).map (fun p => if p.1 == key then (key, v2) else p) := by
    unfold setStrings
    rw [hany2]
    simp
  rw [hstep1, hstep2, filter_map_upsert_strings, List.filter_append, h]
  simp

/-- Filtering for a member after the update branch of `ZADD` yields one
updated pair per previously matching pair. -/
theorem filter_map_upsert_members (l : List (ℤ × String)) (score : ℤ) (member : String) :
    ((l.map (fun p => if p.2 == member then (score, member) else p)).filter
        (fun p => p.2 == member))
      = (l.filter (fun p => p.2 == member)).map (fun _ => (score, member)) := by
  induction l with
  | nil => rfl
  | cons p t ih =>
    rw [List.map_cons]
    by_cases hp : (p.2 == member) = true
    · rw [if_pos hp,
        @List.filter_cons_of_pos _ (fun q => q.2 == member) (score, member) _ (by simp),
        @List.filter_cons_of_pos _ (fun q => q.2 == member) p t hp,
        List.map_cons, ih]
    · rw [if_neg hp,
        @List.filter_cons_of_neg _ (fun q => q.2 == member) p _ hp,
        @List.filter_cons_of_neg _ (fun q => q.2 == member) p t hp, ih]

/-- Two `ZADD`s of the same fresh member leave exactly one entry for
that member, scored by the second write. -/
theorem zaddList_twice_filter (l : List (ℤ × String)) (s1 s2 : ℤ) (member : String)
    (h : l.filter (fun p => p.2 == member) = []) :
    (zaddList (zaddList l s1 member) s2 member).filter (fun p => p.2 == member)
      = [(s2, member)] := by
  have hnone : ∀ p ∈ l, ¬(p.2 == member) = true := by
    intro p hp hcontra
    have : p ∈ l.filter (fun q => q.2 == member) := List.mem_filter.mpr ⟨hp, hcontra⟩
    rw [h] at this
    exact absurd this (List.not_mem_nil p)
  have hany : l.any (fun p => p.2 == member) = false := by
    rw [List.any_eq_false]
    exact hnone
  have hstep1 : zaddList l s1 member = l ++ [(s1, member)] := by
    unfold zaddList
    rw [hany]
    simp
  have hany2 : ((l ++ [(s1, member)]).any fun p => p.2 == member) = true := by simp
  have hstep2 : zaddList (l ++ [(s1, member)]) s2 member
      = (l ++ [(s1, member)]).map (fun p => if p.2 == member then (s2, member) else p) := by
    unfold zaddList
    rw [hany2]
    simp
  rw [hstep1, hstep2, filter_map_upsert_members, List.filter_append, h]
  simp

/-- An association list none of whose keys matches has no lookup. -/
theorem lookup_eq_none_of_any_false {β : Type} (l : List (String × β)) (k : String)
    (h : l.any (fun p => p.1 == k) = false) : l.lookup k = none := by
  induction l with
  | nil => rfl
  | cons p t ih =>
    rw [List.any_cons, Bool.or_eq_false_iff] at h
    have hk : (k == p.1) = false := by
      rcases h with ⟨h1, _⟩
      rw [beq_eq_false_iff_ne] at h1 ⊢
      exact fun hcontra => h1 hcontra.symm
    rw [show (p :: t).lookup k = t.lookup k by
      rcases p with ⟨a, b⟩
      simp [List.lookup, hk]]
    exact ih h.2

/-- Lookup passes over a left part with no matching key. -/
theorem lookup_append_left_none {β : Type} (l1 l2 : List (String × β)) (k : String)
    (h : l1.lookup k = none) : (l1 ++ l2).lookup k = l2.lookup k := by
  induction l1 with
  | nil => rfl
  | cons p t ih =>
    rcases p with ⟨a, b⟩
    by_cases hk : (k == a) = true
    · rw [List.lookup, hk] at h
      exact absurd h (by simp)
    · rw [Bool.not_eq_true] at hk
      rw [List.cons_append]
      simp only [List.lookup, hk] at h ⊢
      exact ih h

/-- A matching key yields some lookup. -/
theorem exists_lookup_of_any {β : Type} (l : List (String × β)) (k : String)
    (h : l.any (fun p => p.1 == k) = true) : ∃ b, l.lookup k = some b := by
  induction l with
  | nil => simp at h
  | cons p t ih =>
    rcases p with ⟨a, b⟩
    by_cases hk : (k == a) = true
    · exact ⟨b, by rw [List.lookup, hk]⟩
    · rw [Bool.not_eq_true] at hk
      rw [List.any_cons] at h
      have ha : (a == k) = false := by
        rw [beq_eq_false_iff_ne] at hk ⊢
        exact fun hcontra => hk hcontra.symm
      rw [ha, Bool.false_or] at h
      obtain ⟨b', hb'⟩ := ih h
      exact ⟨b', by rw [List.lookup, hk]; exact hb'⟩

/-- Lookup after the update branch of a keyspace `ZADD`. -/
theorem lookup_map_upsert_zsets (zs : List (String × List (ℤ × String))) (k : String)
    (score : ℤ) (member : String) :
    (zs.map (fun p => if p.1 == k then (k, zaddList p.2 score member) else p)).lookup k
      = (zs.lookup k).map (fun l => zaddList l score member) := by
  induction zs with
  | nil => rfl
  | cons p t ih =>
    rcases p with ⟨a, b⟩
    by_cases hp : (a == k) = true
    · have hak : a = k := by rwa [beq_iff_eq] at hp
      simp only [List.map_cons, hp, if_true]
      rw [List.lookup, List.lookup, hak, beq_self_eq_true]
      rfl
    · rw [Bool.not_eq_true] at hp
      have hk : (k == a) = false := by
        rw [beq_eq_false_iff_ne] at hp ⊢
        exact fun hcontra => hp hcontra.symm
      simp only [List.map_cons, hp, Bool.false_eq_true, if_false]
      rw [List.lookup, List.lookup, hk]
      exact ih

/-- The sorted set visible at a key after a keyspace `ZADD` is the
`ZADD` of the previously visible (possibly empty) sorted set. -/
theorem lookup_zaddZsets (zs : List (String × List (ℤ × String))) (k : String)
    (score : ℤ) (member : String) :
    (zaddZsets zs k score member).lookup k
      = some (zaddList ((zs.lookup k).getD []) score member) := by
  unfold zaddZsets
  by_cases h : zs.any (fun p => p.1 == k) = true
  · rw [if_pos h, lookup_map_upsert_zsets]
    obtain ⟨l, hl⟩ := exists_lookup_of_any zs k h
    rw [hl]
    rfl
  · rw [Bool.not_eq_true] at h
    rw [if_neg (by rw [h]; exact Bool.false_ne_true)]
    have hnone : zs.lookup k = none := lookup_eq_none_of_any_false zs k h
    rw [lookup_append_left_none _ _ _ hnone, hnone, List.lookup, beq_self_eq_true]
    rfl

/-! ## Claim theorem: Event Store idempotent re-delivery -/

/-- C5: recording two events (Buy or Burn) with the identical
(kind, pool, timestamp) key but different payloads, over any store in
which that key is fresh, leaves exactly one stored record under the key
— holding the second payload — and exactly one entry for that key in
the per-(kind, pool) chronological index: replace, not append. -/
theorem record_same_key_replaces :
    (∀ (st : RedisState) (e1 e2 : BuyEvent) (ts : ℤ),
      e1.pool = e2.pool → e1 ≠ e2 →
      st.strings.filter (fun p => p.1 == buyEventKey e2.pool ts) = [] →
      ((st.zsets.lookup (buyZsetKey e2.pool)).getD []).filter
        (fun p => p.2 == buyEventKey e2.pool ts) = [] →
      (recordBuyEvent e2 ts (recordBuyEvent e1 ts st)).strings.filter
          (fun p => p.1 == buyEventKey e2.pool ts)
        = [(buyEventKey e2.pool ts, buyStored e2 ts)] ∧
      (((recordBuyEvent e2 ts (recordBuyEvent e1 ts st)).zsets.lookup
          (buyZsetKey e2.pool)).getD []).filter
          (fun p => p.2 == buyEventKey e2.pool ts)
        = [(ts, buyEventKey e2.pool ts)]) ∧
    (∀ (st : RedisState) (f1 f2 : BurnEvent) (ts : ℤ),
      f1.pool = f2.pool → f1 ≠ f2 →
      st.strings.filter (fun p => p.1 == burnEventKey f2.pool ts) = [] →
      ((st.zsets.lookup (burnZsetKey f2.pool)).getD []).filter
        (fun p => p.2 == burnEventKey f2.pool ts) = [] →
      (recordBurnEvent f2 ts (recordBurnEvent f1 ts st)).strings.filter
          (fun p => p.1 == burnEventKey f2.pool ts)
        = [(burnEventKey f2.pool ts, burnStored f2 ts)] ∧
      (((recordBurnEvent f2 ts (recordBurnEvent f1 ts st)).zsets.lookup
          (burnZsetKey f2.pool)).getD []).filter
          (fun p => p.2 == burnEventKey f2.pool ts)
        = [(ts, burnEventKey f2.pool ts)]) := by
  constructor
  · intro st e1 e2 ts hpool _ hfr1 hfr2
    constructor
    · rw [recordBuyEvent_strings, recordBuyEvent_strings, hpool]
      exact setStrings_twice_filter _ _ _ _ hfr1
    · rw [recordBuyEvent_zsets, recordBuyEvent_zsets, hpool, lookup_zaddZsets,
        lookup_zaddZsets, Option.getD_some, Option.getD_some]
      exact zaddList_twice_filter _ _ _ _ hfr2
  · intro st f1 f2 ts hpool _ hfr1 hfr2
    constructor
    · rw [recordBurnEvent_strings, recordBurnEvent_strings, hpool]
      exact setStrings_twice_filter _ _ _ _ hfr1
    · rw [recordBurnEvent_zsets, recordBurnEvent_zsets, hpool, lookup_zaddZsets,
        lookup_zaddZsets, Option.getD_some, Option.getD_some]
      exact zaddList_twice_filter _ _ _ _ hfr2

/-- Witness for C5: Buy and Burn double-records with distinct payloads
at pool P1, timestamp 10, over the empty store. -/
theorem record_same_key_replaces_witness :
    (((demoBuyEvent 1).pool = (demoBuyEvent 2).pool ∧ demoBuyEvent 1 ≠ demoBuyEvent 2 ∧
      emptyRedis.strings.filter
        (fun p => p.1 == buyEventKey (demoBuyEvent 2).pool 10) = [] ∧
      ((emptyRedis.zsets.lookup (buyZsetKey (demoBuyEvent 2).pool)).getD []).filter
        (fun p => p.2 == buyEventKey (demoBuyEvent 2).pool 10) = []) ∧
     (recordBuyEvent (demoBuyEvent 2) 10 (recordBuyEvent (demoBuyEvent 1) 10
         emptyRedis)).strings.filter
         (fun p => p.1 == buyEventKey (demoBuyEvent 2).pool 10)
       = [(buyEventKey (demoBuyEvent 2).pool 10, buyStored (demoBuyEvent 2) 10)] ∧
     (((recordBuyEvent (demoBuyEvent 2) 10 (recordBuyEvent (demoBuyEvent 1) 10
         emptyRedis)).zsets.lookup (buyZsetKey (demoBuyEvent 2).pool)).getD []).filter
         (fun p => p.2 == buyEventKey (demoBuyEvent 2).pool 10)
       = [(10, buyEventKey (demoBuyEvent 2).pool 10)]) ∧
    (((demoBurnEvent 1).pool = (demoBurnEvent 2).pool ∧ demoBurnEvent 1 ≠ demoBurnEvent 2 ∧
      emptyRedis.strings.filter
        (fun p => p.1 == burnEventKey (demoBurnEvent 2).pool 10) = [] ∧
      ((emptyRedis.zsets.lookup (burnZsetKey (demoBurnEvent 2).pool)).getD []).filter
        (fun p => p.2 == burnEventKey (demoBurnEvent 2).pool 10) = []) ∧
     (recordBurnEvent (demoBurnEvent 2) 10 (recordBurnEvent (demoBurnEvent 1) 10
         emptyRedis)).strings.filter
         (fun p => p.1 == burnEventKey (demoBurnEvent 2).pool 10)
       = [(burnEventKey (demoBurnEvent 2).pool 10, burnStored (demoBurnEvent 2) 10)] ∧
     (((recordBurnEvent (demoBurnEvent 2) 10 (recordBurnEvent (demoBurnEvent 1) 10
         emptyRedis)).zsets.lookup (burnZsetKey (demoBurnEvent 2).pool)).getD []).filter
         (fun p => p.2 == burnEventKey (demoBurnEvent 2).pool 10)
       = [(10, burnEventKey (demoBurnEvent 2).pool 10)]) :=
  ⟨⟨⟨by decide, by decide, by decide, by decide⟩,
    record_same_key_replaces.1 emptyRedis (demoBuyEvent 1) (demoBuyEvent 2) 10
      (by decide) (by decide) (by decide) (by decide)⟩,
   ⟨⟨by decide, by decide, by decide, by decide⟩,
    record_same_key_replaces.2 emptyRedis (demoBurnEvent 1) (demoBurnEvent 2) 10
      (by decide) (by decide) (by decide) (by decide)⟩⟩
